import Mathlib

/-!
# Verification of the influxdb-tools backup/restore scripts

A shallow embedding, in Lean 4, of the core functions of the
`influx-backup.py` and `line-protocol-to-clickhouse.py` scripts:
the identifier/filename codec, the measurement enumerator filter,
the line-protocol row formatter, the retrying point writer, the
batched restore loop, and the ClickHouse schema reconciler and
insert-retry logic.

Python strings are modelled as `List Char` (`PyStr`); Python's
single-character `str.replace` is a character-wise flat-map; Python's
`in` test on strings is the substring test `pySubstr`; a
`sys.exit(-1)` is modelled by returning `Except.error`; optional
CLI arguments are `Option` values with Python truthiness (both
`None` and the empty string are falsy).  JSON numeric values that
are not integers are carried together with their decimal rendering
(Python `f-string` formatting of a float is not re-modelled).
-/

set_option autoImplicit false

/-- A Python string, modelled as its list of characters. -/
abbrev PyStr := List Char

/-- `s.replace(pat, rep)` for a single-character pattern `pat`:
character-wise replacement. -/
def pyReplaceChar (pat : Char) (rep : PyStr) (s : PyStr) : PyStr :=
  s.flatMap fun c => if c = pat then rep else [c]

/-- Python truthiness of an optional string: `None` and `''` are falsy. -/
def pyTruthyStr : Option PyStr → Bool
  | none => false
  | some s => !s.isEmpty

/-- Python truthiness of an optional list: `None` and `[]` are falsy. -/
def pyTruthyList {α : Type} : Option (List α) → Bool
  | none => false
  | some l => !l.isEmpty

/-- Python's `needle in hay` substring test on strings. -/
def pySubstr (needle : PyStr) : PyStr → Bool
  | [] => needle.isEmpty
  | c :: rest => List.isPrefixOf needle (c :: rest) || pySubstr needle rest

namespace InfluxBackup

/-- `measurement2filename` from `influx-backup.py`:
`return m.replace('/', '╱')`. -/
def measurement2filename (m : PyStr) : PyStr :=
  pyReplaceChar '/' ['╱'] m

/-- `filename2measurement` from `influx-backup.py`:
`return d.replace('╱', '/')`. -/
def filename2measurement (d : PyStr) : PyStr :=
  pyReplaceChar '╱' ['/'] d

/-- `identifier2lineprotocol` from `influx-backup.py`:
`return d.replace(' ', r'\ ').replace(',', r'\,').replace('=', r'\=')`. -/
def identifier2lineprotocol (d : PyStr) : PyStr :=
  pyReplaceChar '=' ['\\', '='] (pyReplaceChar ',' ['\\', ','] (pyReplaceChar ' ' ['\\', ' '] d))

/-- The scan of `filter_measurements` that looks for `FROM_MEASUREMENT`:
`for m in measurements: if m == FROM_MEASUREMENT: return measurements[i:]`.
Returns the sub-list starting at the first match, if any. -/
def findFrom (cursor : PyStr) : List PyStr → Option (List PyStr)
  | [] => none
  | m :: rest => if m = cursor then some (m :: rest) else findFrom cursor rest

/-- The exclusion pass of `filter_measurements`: when `IGNORE_MEASUREMENTS`
is truthy, keep only the measurements not named in it. -/
def exclusionPass (ignore : Option (List PyStr)) (measurements : List PyStr) : List PyStr :=
  if pyTruthyList ignore
    then measurements.filter (fun m => !(ignore.getD []).contains m)
    else measurements

/-- `filter_measurements` from `influx-backup.py` (the identical function in
`line-protocol-to-clickhouse.py` takes the two globals as parameters).
`ignore` models `IGNORE_MEASUREMENTS` (`None` or a list of names), `cursor`
models `FROM_MEASUREMENT` (`None` or a name).  The exclusion pass runs only
when `ignore` is truthy, and the no-match fallback returns `[]` only when
`cursor` is truthy — exactly the two `if` tests in the source. -/
def filter_measurements (ignore : Option (List PyStr)) (cursor : Option PyStr)
    (measurements : List PyStr) : List PyStr :=
  let ms := exclusionPass ignore measurements
  match cursor with
  | none => ms
  | some f =>
    match findFrom f ms with
    | some suffix => suffix
    | none => if pyTruthyStr (some f) then [] else ms

/-- The outcome of one `requests.post(URL+'/write', ...)` attempt: either the
call raised an exception (carried as the rendering of `sys.exc_info()[0]`) or
it returned a response with a status code and a body text. -/
inductive Attempt : Type
  | exc (e : PyStr)
  | resp (status : Nat) (text : PyStr)

/-- The retention-skip marker tested by `write_points`:
`'points beyond retention policy' in r.text`. -/
def retentionMsg : PyStr := "points beyond retention policy".data

/-- The `last_error` recorded for a failed attempt: for a response,
`f' {r.status_code} HTTP error, {r.text}'`; for an exception, the
exception type. -/
def attemptError : Attempt → PyStr
  | .exc e => e
  | .resp s t => ' ' :: Nat.toDigits 10 s ++ " HTTP error, ".data ++ t

/-- An attempt that makes `write_points` return successfully: a 204 status,
or a body containing the retention-skip marker. -/
def attemptSucceeds : Attempt → Bool
  | .exc _ => false
  | .resp s t => s == 204 || pySubstr retentionMsg t

/-- The observable trace of one `write_points` call: whether it returned
(rather than calling `sys.exit(-1)`), how many POST attempts it made, how
many `time.sleep(1)` calls it made, and the `last_error` printed just
before a fatal exit (`none` on success). -/
structure WPTrace : Type where
  success : Bool
  attempts : Nat
  sleeps : Nat
  fatalPrint : Option PyStr
  deriving DecidableEq, Repr

/-- The `while retries > 0` loop of `write_points`.  `post n` is the outcome
of the `n`-th POST (0-based), `r` the remaining `retries`, `made` the number
of attempts already made, `lastError` the current `last_error`.  Each failed
attempt decrements `retries` and sleeps one second; when `retries` reaches 0
the loop falls through to `print(last_error); sys.exit(-1)`. -/
def wpLoop (post : Nat → Attempt) : Nat → Nat → PyStr → WPTrace
  | 0, made, lastError => ⟨false, made, made, some lastError⟩
  | r + 1, made, _lastError =>
    match post made with
    | .resp s t =>
      if s = 204 then ⟨true, made + 1, made, none⟩
      else if pySubstr retentionMsg t then ⟨true, made + 1, made, none⟩
      else wpLoop post r (made + 1) (attemptError (.resp s t))
    | .exc e => wpLoop post r (made + 1) e

/-- `write_points` from `influx-backup.py`, restricted to its retry loop:
`last_error = ''; retries = 10; while retries > 0: ...`.  The network is
abstracted as the sequence `post` of attempt outcomes. -/
def write_points (post : Nat → Attempt) : WPTrace :=
  wpLoop post 10 0 []

/-- The value of `last_error` after `k` consecutive failed attempts starting
at attempt `made`, when it was `e` beforehand.  Characterises the error the
loop threads through; used only to state lemmas about `wpLoop`. -/
def lastErrAfter (post : Nat → Attempt) (made k : Nat) (e : PyStr) : PyStr :=
  if k = 0 then e else attemptError (post (made + k - 1))

/-- The per-file accumulation loop of `restore` (`influx-backup.py` lines
300-309, and identically `line-protocol-to-clickhouse.py` lines 187-196):
`for i in f: if len(lines) == B: write(lines); lines = []; lines.append(i)`
followed by `if lines: write(lines)`.  Returns the list of batches passed to
`write_points` (resp. `write_records`), in order. -/
def restoreGo {α : Type} (B : Nat) : List α → List α → List (List α) → List (List α)
  | [], lines, writes => if lines.isEmpty then writes else writes ++ [lines]
  | i :: rest, lines, writes =>
    if lines.length = B then restoreGo B rest [i] (writes ++ [lines])
    else restoreGo B rest (lines ++ [i]) writes

/-- The sequence of write calls the restore loop issues for a file whose
lines are `file`, with batch size `B` (`WRITE_CHUNK_SIZE = 5000` in
`influx-backup.py`, `args.insert_size` in the ClickHouse loader). -/
def restore_batches {α : Type} (B : Nat) (file : List α) : List (List α) :=
  restoreGo B file [] []

/-- Specification-side chunking: split a list into consecutive chunks of
`B` elements, the last chunk possibly shorter.  Used only to characterise
`restore_batches`. -/
def chunkify {α : Type} (B : Nat) : List α → List (List α)
  | [] => []
  | x :: xs => (x :: xs.take (B - 1)) :: chunkify B (xs.drop (B - 1))
termination_by l => l.length
decreasing_by simp; omega

end InfluxBackup

/-- A JSON value appearing in an InfluxDB query response, as decoded by
`json.loads`.  Non-integer numbers are carried together with their decimal
rendering (`float r` renders as `r`), so that Python's f-string formatting
of floats need not be re-modelled; integers render in the usual way. -/
inductive JVal : Type
  | null
  | str (s : PyStr)
  | int (n : Int)
  | float (render : PyStr)
  deriving DecidableEq, Repr

/-- Python `str(n)` for an integer. -/
def intRender : Int → PyStr
  | .ofNat n => Nat.toDigits 10 n
  | .negSucc n => '-' :: Nat.toDigits 10 (n + 1)

/-- How a `JVal` prints inside an f-string. -/
def JVal.render : JVal → PyStr
  | .null => "None".data
  | .str s => s
  | .int n => intRender n
  | .float r => r

/-- Python's `val is None or val == ''` skip test in `format_rows`
(an integer or float never equals `''`). -/
def JVal.isSkipped : JVal → Bool
  | .null => true
  | .str s => s.isEmpty
  | _ => false

/-- Python's `timestamp == 0` sentinel test.  The `time` column of a
response requested with `epoch=ns` is a JSON integer, so only the integer
zero is treated as the sentinel here. -/
def JVal.eqZero : JVal → Bool
  | .int n => n == 0
  | _ => false

/-- Dictionary lookup in an association list (`msfields[col]`). -/
def dictLookup (d : List (PyStr × PyStr)) (k : PyStr) : Option PyStr :=
  (d.find? fun p => p.1 == k).map Prod.snd

/-- `','.join(l)`. -/
def joinComma : List PyStr → PyStr
  | [] => []
  | s :: rest => s ++ rest.flatMap (fun r => ',' :: r)

namespace InfluxBackup

/-- The state built by the inner column loop of `format_rows`:
`timestamp = 0; tags = []; fields = []` and then one update per column. -/
structure RowAcc : Type where
  timestamp : JVal
  tags : List PyStr
  fields : List PyStr
  deriving DecidableEq, Repr

/-- One iteration of the column loop of `format_rows` (lines 95-116 of
`influx-backup.py`): skip null/empty values, route the `time` column to the
timestamp, columns named in the field schema to `fields` (string-typed
values are quote-escaped and double-quoted, integer-typed values get the
`i` suffix), and every other column to `tags` (string values wire-escaped). -/
def rowStep (msfields : List (PyStr × PyStr)) (acc : RowAcc) : PyStr × JVal → RowAcc :=
  fun (col, val) =>
    if val.isSkipped then acc
    else if col = "time".data then { acc with timestamp := val }
    else
      match dictLookup msfields col with
      | some ty =>
        let v : PyStr :=
          if ty = "string".data then
            '"' :: pyReplaceChar '"' ['\\', '"'] val.render ++ ['"']
          else if ty = "integer".data then val.render ++ ['i']
          else val.render
        { acc with fields := acc.fields ++ [identifier2lineprotocol col ++ '=' :: v] }
      | none =>
        let v : PyStr :=
          match val with
          | .str s => identifier2lineprotocol s
          | w => w.render
        { acc with tags := acc.tags ++ [identifier2lineprotocol col ++ '=' :: v] }

/-- The full column loop for one row `c` of a series (well-formed responses
have `len(columns) == len(c)`; the Python loop indexes `c` by column
position, which the zip reproduces). -/
def processRow (msfields : List (PyStr × PyStr)) (columns : List PyStr)
    (vals : List JVal) : RowAcc :=
  (columns.zip vals).foldl (rowStep msfields) ⟨.int 0, [], []⟩

/-- The output line built for one valid row (lines 123-126):
`f"{identifier2lineprotocol(m)},{','.join(tags)} {','.join(fields)} {timestamp}\n"`
when there are tags, without the tag section otherwise. -/
def emitRow (m : PyStr) (acc : RowAcc) : PyStr :=
  if acc.tags.isEmpty then
    identifier2lineprotocol m ++ ' ' :: joinComma acc.fields
      ++ ' ' :: acc.timestamp.render ++ ['\n']
  else
    identifier2lineprotocol m ++ ',' :: joinComma acc.tags
      ++ ' ' :: joinComma acc.fields ++ ' ' :: acc.timestamp.render ++ ['\n']

/-- Processing of all rows of one series: each row is decoded; a row whose
timestamp is still the sentinel `0` or whose field list is empty triggers
`print(...); sys.exit(-1)`, modelled as `Except.error`. -/
def formatValues (m : PyStr) (msfields : List (PyStr × PyStr)) (columns : List PyStr) :
    List (List JVal) → Except PyStr (List PyStr)
  | [] => .ok []
  | c :: rest =>
    let acc := processRow msfields columns c
    if acc.timestamp.eqZero || acc.fields.isEmpty then
      .error ("No time column or 0 fields for ".data ++ m)
    else do
      let more ← formatValues m msfields columns rest
      .ok (emitRow m acc :: more)

/-- One series of a query result: its `columns` and `values` members. -/
structure Series : Type where
  columns : List PyStr
  values : List (List JVal)

/-- One element of `data['results']`; `series = none` models a result
object with no `'series'` member. -/
structure QResult : Type where
  series : Option (List Series)

/-- All series of one result. -/
def formatSeriesList (m : PyStr) (msfields : List (PyStr × PyStr)) :
    List Series → Except PyStr (List PyStr)
  | [] => .ok []
  | b :: rest => do
    let rows1 ← formatValues m msfields b.columns b.values
    let rows2 ← formatSeriesList m msfields rest
    .ok (rows1 ++ rows2)

/-- `format_rows` from `influx-backup.py`: iterate over `data['results']`,
`break` (returning the rows collected so far) at the first result without a
`'series'` member, abort the run on any invalid row. -/
def format_rows (m : PyStr) (msfields : List (PyStr × PyStr)) :
    List QResult → Except PyStr (List PyStr)
  | [] => .ok []
  | a :: rest =>
    match a.series with
    | none => .ok []
    | some sl => do
      let rows1 ← formatSeriesList m msfields sl
      let rows2 ← format_rows m msfields rest
      .ok (rows1 ++ rows2)

end InfluxBackup

namespace LP2CH

/-- A value in a parsed line-protocol row, as produced by `parse_line` and
the defaults the loader injects (`''` and `0`).  Non-integer numbers carry
their decimal rendering, as in `JVal`. -/
inductive ChVal : Type
  | str (s : PyStr)
  | int (n : Int)
  | float (render : PyStr)
  deriving DecidableEq, Repr

/-- ASCII case folding, enough for `v.lower()` on ClickHouse type names. -/
def pyLowerChar (c : Char) : Char :=
  if 'A' ≤ c ∧ c ≤ 'Z' then Char.ofNat (c.toNat + 32) else c

/-- Python `v.lower()` (restricted to ASCII letters). -/
def pyLower (s : PyStr) : PyStr := s.map pyLowerChar

/-- The missing-column loop of `write_records` (`line-protocol-to-clickhouse.py`
lines 81-99).  `row_columns = ','.join(row.keys())` is computed once; then,
for each `(k, v)` of the target table's schema in order, the code tests
`if k in row_columns` — a substring test on the joined string — and when that
test fails appends a default keyed by the lower-cased type: `''` when it
contains `'string'`, `0` when it contains `'int'` or `'float'`, and
`sys.exit(-1)` (modelled as `Except.error`) otherwise. -/
def addMissingGo (rowColumns : PyStr) :
    List (PyStr × PyStr) → List (PyStr × ChVal) → Except PyStr (List (PyStr × ChVal))
  | [], row => .ok row
  | (k, v) :: rest, row =>
    if pySubstr k rowColumns then addMissingGo rowColumns rest row
    else
      let vl := pyLower v
      if pySubstr "string".data vl then
        addMissingGo rowColumns rest (row ++ [(k, .str [])])
      else if pySubstr "int".data vl || pySubstr "float".data vl then
        addMissingGo rowColumns rest (row ++ [(k, .int 0)])
      else
        .error ("Need to set default value for column ".data ++ k)

/-- Default fill-in for one row against one table's schema, exactly as
`write_records` performs it. -/
def addMissingColumns (schema : List (PyStr × PyStr)) (row : List (PyStr × ChVal)) :
    Except PyStr (List (PyStr × ChVal)) :=
  addMissingGo (joinComma (row.map Prod.fst)) schema row

/-- What the given relevant schema columns SHOULD receive per the spec:
`Modelled from the spec:` the reconciliation sentence — a column of the
target schema is defaulted exactly when it is absent from the row's keys.
Used only to exhibit the divergence of the code's substring test. -/
def specMissingColumns (schema : List (PyStr × PyStr)) (row : List (PyStr × ChVal)) :
    List PyStr :=
  (schema.map Prod.fst).filter fun k => !(row.map Prod.fst).contains k

/-- The outcome of one `client.execute(query, rows)` call: success, a
`KeyError`, or any other exception (`BaseException`). -/
inductive ExecOutcome : Type
  | ok
  | keyError (e : PyStr)
  | otherError (e : PyStr)
  deriving DecidableEq, Repr

/-- The result of the `try/except` around one batch insert of
`write_records` (lines 111-118): the batch completed (with the number of
`execute` calls made, and whether it was dropped by the `KeyError` handler),
or an exception escaped the handler and aborts the run. -/
inductive InsertResult : Type
  | completed (attemptsUsed : Nat) (skippedKeyError : Bool)
  | raised (e : PyStr)
  deriving DecidableEq, Repr

/-- The `try/except` of one batch insert: a first `execute`; a `KeyError`
is caught and logged (batch dropped, no retry); any other exception is
logged and the `execute` is re-run once, outside any handler, so a second
failure of either kind propagates. -/
def insertBatch (exec : Nat → ExecOutcome) : InsertResult :=
  match exec 0 with
  | .ok => .completed 1 false
  | .keyError _ => .completed 1 true
  | .otherError _ =>
    match exec 1 with
    | .ok => .completed 2 false
    | .keyError e2 => .raised e2
    | .otherError e2 => .raised e2

/-- The write loop of `write_records` over the per-table record groups
(`for table_name, rows in records.items()`): batches are inserted in order;
a raised exception aborts the whole run (nothing after it is attempted),
otherwise each table contributes its insert outcome and the loop goes on. -/
def writePhase : List (PyStr × (Nat → ExecOutcome)) → Except PyStr (List (PyStr × InsertResult))
  | [] => .ok []
  | (t, exec) :: rest =>
    match insertBatch exec with
    | .completed n sk => do
      let more ← writePhase rest
      .ok ((t, .completed n sk) :: more)
    | .raised e => .error e

end LP2CH

/-! ## Helper lemmas -/

namespace InfluxBackup

theorem pyReplaceChar_nil (pat : Char) (rep : PyStr) : pyReplaceChar pat rep [] = [] := rfl

theorem pyReplaceChar_cons (pat : Char) (rep : PyStr) (c : Char) (s : PyStr) :
    pyReplaceChar pat rep (c :: s)
      = (if c = pat then rep else [c]) ++ pyReplaceChar pat rep s := by
  simp [pyReplaceChar]

/-- The cursor scan finds nothing when the cursor is absent from the list. -/
theorem findFrom_eq_none {f : PyStr} : ∀ {ms : List PyStr}, f ∉ ms → findFrom f ms = none
  | [], _ => rfl
  | m :: rest, h => by
    have hm : m ≠ f := fun hm => h (hm ▸ List.mem_cons_self m rest)
    have hrest : f ∉ rest := fun hr => h (List.mem_cons_of_mem m hr)
    simp [findFrom, hm, findFrom_eq_none hrest]

/-- The cursor scan returns the suffix starting at the first occurrence. -/
theorem findFrom_first (f : PyStr) : ∀ (pre suf : List PyStr), f ∉ pre →
    findFrom f (pre ++ f :: suf) = some (f :: suf)
  | [], suf, _ => by simp [findFrom]
  | p :: pre, suf, h => by
    have hp : p ≠ f := fun hp => h (hp ▸ List.mem_cons_self p pre)
    have hpre : f ∉ pre := fun hr => h (List.mem_cons_of_mem p hr)
    simp [findFrom, hp, findFrom_first f pre suf hpre]

end InfluxBackup

/-! ## C3 — filename codec round-trip -/

namespace InfluxBackup

/-- C3 counterexample: the claim quantifies over **all** measurement names,
but a name that already contains the escape character `'╱'` (U+2571) does
not round-trip: `filename2measurement (measurement2filename "╱") = "/"`. -/
theorem C3_roundtrip_counterexample :
    filename2measurement (measurement2filename ['╱']) ≠ ['╱'] := by decide

/-- C3 (amended): for every measurement name that contains no `'╱'`
character — in particular every name containing the path separator `'/'` —
`filename2measurement (measurement2filename name) = name`. -/
theorem C3_roundtrip (m : PyStr) (h : '╱' ∉ m) :
    filename2measurement (measurement2filename m) = m := by
  induction m with
  | nil => rfl
  | cons c cs ih =>
    have hc : c ≠ '╱' := fun hc => h (hc ▸ List.mem_cons_self c cs)
    have hcs : '╱' ∉ cs := fun hm => h (List.mem_cons_of_mem c hm)
    by_cases hslash : c = '/'
    · subst hslash
      simp only [measurement2filename, filename2measurement] at *
      rw [pyReplaceChar_cons]
      simp [pyReplaceChar_cons, ih hcs]
    · simp only [measurement2filename, filename2measurement] at *
      rw [pyReplaceChar_cons]
      simp [hslash, pyReplaceChar_cons, hc, ih hcs]

/-- Witness for `C3_roundtrip` at a name containing the path separator. -/
theorem C3_roundtrip_witness :
    filename2measurement (measurement2filename "a/b".data) = "a/b".data :=
  C3_roundtrip "a/b".data (by decide)

end InfluxBackup

/-! ## C5 and C9 — enumerator filtering -/

namespace InfluxBackup

/-- When the cursor is non-empty and matches nothing in the filtered list,
`filter_measurements` returns `[]`. -/
theorem filter_no_match (ignore : Option (List PyStr)) (f : PyStr) (ms : List PyStr)
    (hne : f ≠ []) (h : f ∉ exclusionPass ignore ms) :
    filter_measurements ignore (some f) ms = [] := by
  obtain ⟨c, rest, rfl⟩ := List.exists_cons_of_ne_nil hne
  simp [filter_measurements, findFrom_eq_none h, pyTruthyStr]

/-- When the cursor occurs in the filtered list, `filter_measurements`
returns the suffix starting at its first occurrence. -/
theorem filter_first_match (ignore : Option (List PyStr)) (f : PyStr)
    (ms pre suf : List PyStr)
    (h : exclusionPass ignore ms = pre ++ f :: suf) (hpre : f ∉ pre) :
    filter_measurements ignore (some f) ms = f :: suf := by
  simp [filter_measurements, h, findFrom_first f pre suf hpre]

/-- C5 (amended): `filter_measurements` drops the excluded measurements and
then, for a **non-empty** resume cursor, returns the sub-list of the filtered
list starting at the first element equal to the cursor, and `[]` when the
cursor never matches; concretely, `["cpu","disk","mem"]` with cursor
`"disk"` gives `["disk","mem"]`, and with exclusion set `{"mem"}` and no
cursor gives `["cpu","disk"]`.  (The original claim, for *every* given
cursor, fails at the empty-string cursor, which Python treats as falsy.) -/
theorem C5_enumerator_filtering :
    (filter_measurements none (some "disk".data) ["cpu".data, "disk".data, "mem".data]
      = ["disk".data, "mem".data])
    ∧ (filter_measurements (some ["mem".data]) none ["cpu".data, "disk".data, "mem".data]
      = ["cpu".data, "disk".data])
    ∧ ∀ (ignore : Option (List PyStr)) (f : PyStr) (ms : List PyStr), f ≠ [] →
        ((∀ pre suf, exclusionPass ignore ms = pre ++ f :: suf → f ∉ pre →
            filter_measurements ignore (some f) ms = f :: suf)
          ∧ (f ∉ exclusionPass ignore ms → filter_measurements ignore (some f) ms = [])) := by
  refine ⟨by decide, by decide, fun ignore f ms hne => ⟨fun pre suf h hpre => ?_, fun h => ?_⟩⟩
  · exact filter_first_match ignore f ms pre suf h hpre
  · exact filter_no_match ignore f ms hne h

/-- Witness for `C5_enumerator_filtering` at concrete inputs. -/
theorem C5_enumerator_filtering_witness :
    filter_measurements none (some "disk".data) ["cpu".data, "disk".data, "mem".data]
      = "disk".data :: ["mem".data]
    ∧ filter_measurements none (some "zz".data) ["cpu".data] = [] :=
  ⟨(C5_enumerator_filtering.2.2 none "disk".data
      ["cpu".data, "disk".data, "mem".data] (by decide)).1 ["cpu".data] ["mem".data]
      (by decide) (by decide),
   (C5_enumerator_filtering.2.2 none "zz".data ["cpu".data] (by decide)).2 (by decide)⟩

/-- C5 counterexample: the empty string is a *given* cursor that Python's
truthiness test treats as absent; it matches nothing in `["cpu"]`, yet
`filter_measurements` returns the full list instead of the `[]` the claim
requires. -/
theorem C5_enumerator_filtering_counterexample :
    ([] : PyStr) ∉ exclusionPass none ["cpu".data]
    ∧ filter_measurements none (some []) ["cpu".data] = ["cpu".data] :=
  ⟨by decide, rfl⟩

/-- C9 (amended): for a **non-empty** cursor that is itself in the (given)
exclusion set, `filter_measurements` returns `[]`: the exclusion pass runs
first, so the cursor can never match. -/
theorem C9_excluded_cursor (ignore : List PyStr) (f : PyStr) (ms : List PyStr)
    (hne : f ≠ []) (hmem : f ∈ ignore) :
    filter_measurements (some ignore) (some f) ms = [] := by
  apply filter_no_match (some ignore) f ms hne
  intro hf
  have hig : ignore ≠ [] := List.ne_nil_of_mem hmem
  simp [exclusionPass, pyTruthyList, hig, List.mem_filter] at hf
  exact hf.2 hmem

/-- Witness for `C9_excluded_cursor`: cursor `"disk"` excluded, so nothing
is enumerated even though `"disk"` and `"mem"` are in the list. -/
theorem C9_excluded_cursor_witness :
    filter_measurements (some ["disk".data]) (some "disk".data)
      ["cpu".data, "disk".data, "mem".data] = [] :=
  C9_excluded_cursor ["disk".data] "disk".data
    ["cpu".data, "disk".data, "mem".data] (by decide) (by decide)

/-- C9 counterexample: with the empty string as cursor and the empty string
in the exclusion set, the code returns the non-excluded rest of the list
instead of the `[]` the claim requires (the falsy cursor disables the
no-match fallback). -/
theorem C9_excluded_cursor_counterexample :
    ([] : PyStr) ∈ [([] : PyStr)]
    ∧ filter_measurements (some [[]]) (some []) [[], "cpu".data] = ["cpu".data] :=
  ⟨by decide, rfl⟩

end InfluxBackup

/-! ## C2 and C6 — write_points retry policy -/

namespace InfluxBackup

/-- One failed attempt consumes one unit of `retries`, sleeps once, and
records its error as `last_error`. -/
theorem wpLoop_fail_step (post : Nat → Attempt) {made : Nat}
    (hm : attemptSucceeds (post made) = false) (r : Nat) (e : PyStr) :
    wpLoop post (r + 1) made e = wpLoop post r (made + 1) (attemptError (post made)) := by
  cases hp : post made with
  | exc e' => simp [wpLoop, hp, attemptError]
  | resp s t =>
    rw [hp] at hm
    simp only [attemptSucceeds, Bool.or_eq_false_iff, beq_eq_false_iff_ne] at hm
    simp [wpLoop, hp, attemptError, hm.1, hm.2]

/-- A successful attempt makes the loop return at once: `made + 1` total
attempts, `made` sleeps, no fatal print. -/
theorem wpLoop_succ_step (post : Nat → Attempt) {made : Nat}
    (hm : attemptSucceeds (post made) = true) (r : Nat) (e : PyStr) :
    wpLoop post (r + 1) made e = ⟨true, made + 1, made, none⟩ := by
  cases hp : post made with
  | exc e' => rw [hp] at hm; simp [attemptSucceeds] at hm
  | resp s t =>
    rw [hp] at hm
    simp only [attemptSucceeds, Bool.or_eq_true, beq_iff_eq] at hm
    rcases hm with h204 | hret
    · simp [wpLoop, hp, h204]
    · by_cases h204 : s = 204
      · simp [wpLoop, hp, h204]
      · simp [wpLoop, hp, h204, hret]

/-- `k` consecutive failures advance the loop by `k` attempts, threading the
last observed error. -/
theorem wpLoop_fails (post : Nat → Attempt) :
    ∀ (k r made : Nat) (e : PyStr),
      (∀ j, j < k → attemptSucceeds (post (made + j)) = false) →
      wpLoop post (k + r) made e = wpLoop post r (made + k) (lastErrAfter post made k e)
  | 0, r, made, e, _ => by simp [lastErrAfter]
  | k + 1, r, made, e, hfail => by
    have h0 : attemptSucceeds (post made) = false := by
      have := hfail 0 (Nat.succ_pos k)
      simpa using this
    have hrest : ∀ j, j < k → attemptSucceeds (post (made + 1 + j)) = false := by
      intro j hj
      have := hfail (j + 1) (by omega)
      have harith : made + (j + 1) = made + 1 + j := by omega
      rwa [harith] at this
    have hstep : (k + 1) + r = (k + r) + 1 := by omega
    rw [hstep, wpLoop_fail_step post h0 (k + r) e,
        wpLoop_fails post k r (made + 1) (attemptError (post made)) hrest]
    have harith : made + 1 + k = made + (k + 1) := by omega
    rw [harith]
    rcases Nat.eq_zero_or_pos k with hk | hk
    · subst hk; simp [lastErrAfter]
    · have h1 : lastErrAfter post (made + 1) k (attemptError (post made))
          = attemptError (post (made + 1 + k - 1)) := by
        simp [lastErrAfter, Nat.pos_iff_ne_zero.mp hk]
      have h2 : lastErrAfter post made (k + 1) e = attemptError (post (made + (k + 1) - 1)) := by
        simp [lastErrAfter]
      rw [h1, h2]
      have harith2 : made + 1 + k - 1 = made + (k + 1) - 1 := by omega
      rw [harith2]

/-- The loop never makes more attempts than it has fuel. -/
theorem wpLoop_attempts_le (post : Nat → Attempt) :
    ∀ (r made : Nat) (e : PyStr), (wpLoop post r made e).attempts ≤ made + r
  | 0, made, e => Nat.le_refl made
  | r + 1, made, e => by
    cases hp : post made with
    | exc e' =>
      simp only [wpLoop, hp]
      have := wpLoop_attempts_le post r (made + 1) e'
      omega
    | resp s t =>
      simp only [wpLoop, hp]
      split
      · show made + 1 ≤ made + (r + 1)
        omega
      · split
        · show made + 1 ≤ made + (r + 1)
          omega
        · have := wpLoop_attempts_le post r (made + 1) (attemptError (.resp s t))
          omega

/-- Success at the first attempt whose outcome is success-triggering, after
`k` failures. -/
theorem write_points_success_at (post : Nat → Attempt) (k : Nat) (hk : k < 10)
    (hfail : ∀ j, j < k → attemptSucceeds (post j) = false)
    (hsucc : attemptSucceeds (post k) = true) :
    write_points post = ⟨true, k + 1, k, none⟩ := by
  have hfail' : ∀ j, j < k → attemptSucceeds (post (0 + j)) = false := by
    intro j hj; simpa using hfail j hj
  have h10 : (10 : Nat) = k + (10 - k) := by omega
  have heq := wpLoop_fails post k (10 - k) 0 [] hfail'
  obtain ⟨r', hr'⟩ : ∃ r', 10 - k = r' + 1 := ⟨10 - k - 1, by omega⟩
  have hsucc' : attemptSucceeds (post (0 + k)) = true := by simpa using hsucc
  rw [write_points, h10, heq, hr', wpLoop_succ_step post hsucc' r' _]
  simp

/-- C2: for every sequence of POST outcomes, `write_points` makes at most 10
attempts with one one-second sleep after each failure; a 204 response after
`k` failures returns success immediately with `k+1` attempts and `k` sleeps;
and if all 10 attempts fail it returns `success = false` (the process exits
with status −1) after printing the last observed error — it never falls
through silently. -/
theorem C2_retry_policy (post : Nat → Attempt) :
    (write_points post).attempts ≤ 10
    ∧ (∀ k t, k < 10 → (∀ j, j < k → attemptSucceeds (post j) = false) →
        post k = .resp 204 t → write_points post = ⟨true, k + 1, k, none⟩)
    ∧ ((∀ j, j < 10 → attemptSucceeds (post j) = false) →
        write_points post = ⟨false, 10, 10, some (attemptError (post 9))⟩) := by
  refine ⟨?_, fun k t hk hfail hresp => ?_, fun hfail => ?_⟩
  · have := wpLoop_attempts_le post 10 0 []
    simpa [write_points] using this
  · apply write_points_success_at post k hk hfail
    simp [attemptSucceeds, hresp]
  · have hfail' : ∀ j, j < 10 → attemptSucceeds (post (0 + j)) = false := by
      intro j hj; simpa using hfail j hj
    have heq := wpLoop_fails post 10 0 0 [] hfail'
    norm_num at heq
    rw [write_points, heq]
    simp [wpLoop, lastErrAfter]

/-- Witness for `C2_retry_policy`: a POST that always returns 500 exhausts
all 10 attempts and exits fatally with the last error; a first-attempt 204
returns at once. -/
theorem C2_retry_policy_witness :
    write_points (fun _ => .resp 500 "boom".data)
      = ⟨false, 10, 10, some (attemptError (.resp 500 "boom".data))⟩
    ∧ write_points (fun _ => .resp 204 []) = ⟨true, 0 + 1, 0, none⟩ :=
  ⟨(C2_retry_policy (fun _ => .resp 500 "boom".data)).2.2 (by decide),
   (C2_retry_policy (fun _ => .resp 204 [])).2.1 0 [] (by decide)
     (fun j hj => absurd hj (Nat.not_lt_zero j)) rfl⟩

/-- C6: any response whose body contains `"points beyond retention policy"`
— whatever its status code — makes `write_points` return success at once:
no further attempt, no retry sleep beyond those already made, no fatal
exit. -/
theorem C6_retention_skip (post : Nat → Attempt) (k s : Nat) (t : PyStr) (hk : k < 10)
    (hfail : ∀ j, j < k → attemptSucceeds (post j) = false)
    (hresp : post k = .resp s t) (hret : pySubstr retentionMsg t = true) :
    write_points post = ⟨true, k + 1, k, none⟩ := by
  apply write_points_success_at post k hk hfail
  simp [attemptSucceeds, hresp, hret]

/-- Witness for `C6_retention_skip`: a 400 response carrying the
retention-skip marker succeeds on the first attempt. -/
theorem C6_retention_skip_witness :
    write_points (fun _ => .resp 400 "partial write: points beyond retention policy dropped=5".data)
      = ⟨true, 0 + 1, 0, none⟩ :=
  C6_retention_skip (fun _ => .resp 400 "partial write: points beyond retention policy dropped=5".data)
    0 400 "partial write: points beyond retention policy dropped=5".data
    (by decide) (fun j hj => absurd hj (Nat.not_lt_zero j)) rfl (by decide)

end InfluxBackup

/-! ## C10 — ClickHouse insert error handling -/

namespace LP2CH

/-- C10: the batch-insert error handling of `write_records` differs from the
10-attempt policy of the point writer: a `KeyError` on the first `execute`
is caught — one attempt, batch dropped, and the remaining tables are still
processed; any other exception triggers exactly one immediate retry, whose
success completes the batch in two attempts, and whose failure (of either
kind) propagates and aborts the run regardless of what follows. -/
theorem C10_insert_error_handling (t : PyStr) (exec : Nat → ExecOutcome)
    (rest : List (PyStr × (Nat → ExecOutcome))) :
    (∀ e, exec 0 = .keyError e →
        insertBatch exec = .completed 1 true
        ∧ writePhase ((t, exec) :: rest)
            = (writePhase rest).map (fun more => (t, .completed 1 true) :: more))
    ∧ (∀ e, exec 0 = .otherError e → exec 1 = .ok →
        insertBatch exec = .completed 2 false)
    ∧ (∀ e e2, exec 0 = .otherError e →
        (exec 1 = .otherError e2 ∨ exec 1 = .keyError e2) →
        writePhase ((t, exec) :: rest) = .error e2) := by
  refine ⟨fun e h0 => ⟨?_, ?_⟩, fun e h0 h1 => ?_, fun e e2 h0 h1 => ?_⟩
  · simp [insertBatch, h0]
  · simp only [writePhase, insertBatch, h0]
    cases writePhase rest <;> rfl
  · simp [insertBatch, h0, h1]
  · rcases h1 with h1 | h1 <;> simp [writePhase, insertBatch, h0, h1]

/-- Witness for `C10_insert_error_handling` at concrete outcome sequences. -/
theorem C10_insert_error_handling_witness :
    writePhase [("a".data, fun _ => .keyError "k".data), ("b".data, fun _ => .ok)]
      = (writePhase [("b".data, fun _ => .ok)]).map
          (fun more => ("a".data, .completed 1 true) :: more)
    ∧ insertBatch (fun n => if n = 0 then .otherError "e".data else .ok)
      = .completed 2 false
    ∧ writePhase [("a".data, fun _ => .otherError "e".data), ("b".data, fun _ => .ok)]
      = .error "e".data :=
  ⟨((C10_insert_error_handling "a".data (fun _ => .keyError "k".data)
      [("b".data, fun _ => .ok)]).1 "k".data rfl).2,
   (C10_insert_error_handling "x".data (fun n => if n = 0 then .otherError "e".data else .ok)
      []).2.1 "e".data rfl rfl,
   (C10_insert_error_handling "a".data (fun _ => .otherError "e".data)
      [("b".data, fun _ => .ok)]).2.2 "e".data "e".data rfl (Or.inl rfl)⟩

end LP2CH

/-! ## C4 — schema default fill -/

namespace LP2CH

/-- C4: the claim says every schema column *absent from the row* is given a
type-appropriate default.  The code instead tests `k in row_columns` where
`row_columns = ','.join(row.keys())` — a **substring** test on the joined
key string.  A schema column `"im"` absent from a row with keys
`time, host` is skipped (because `"im"` occurs inside `"time,host"`), so no
default is injected; the spec-side reconciliation lists `"im"` as missing.
The other halves of the claim do hold: a genuinely non-substring missing
column gets `''` for a string-like type and `0` for an int/float-like type,
and an unrecognized type is a fatal exit. -/
theorem C4_substring_skip :
    addMissingColumns
        [("time".data, "UInt64".data), ("im".data, "String".data)]
        [("time".data, .int 100), ("host".data, .str "a".data)]
      = .ok [("time".data, .int 100), ("host".data, .str "a".data)]
    ∧ specMissingColumns
        [("time".data, "UInt64".data), ("im".data, "String".data)]
        [("time".data, .int 100), ("host".data, .str "a".data)]
      = ["im".data]
    ∧ addMissingColumns
        [("xy".data, "String".data), ("ab".data, "Int32".data), ("cd".data, "Float64".data)]
        [("time".data, .int 100)]
      = .ok [("time".data, .int 100), ("xy".data, .str []), ("ab".data, .int 0),
             ("cd".data, .int 0)]
    ∧ addMissingColumns [("cd".data, "Date".data)] [("time".data, .int 100)]
      = .error ("Need to set default value for column ".data ++ "cd".data) :=
  ⟨rfl, by decide, rfl, rfl⟩

end LP2CH

/-! ## C7 — data-integrity abort on bad rows -/

namespace InfluxBackup

/-- A values list ending in a bad row (sentinel timestamp or no fields) is
always an error, whatever the preceding rows do. -/
theorem formatValues_bad (m : PyStr) (msfields : List (PyStr × PyStr)) (columns : List PyStr)
    (vals : List JVal)
    (hbad : ((processRow msfields columns vals).timestamp.eqZero
             || (processRow msfields columns vals).fields.isEmpty) = true) :
    ∀ (pre : List (List JVal)),
      formatValues m msfields columns (pre ++ [vals])
        = .error ("No time column or 0 fields for ".data ++ m)
  | [] => by simp [formatValues, hbad]
  | p :: pre => by
    simp only [List.cons_append, formatValues, List.append_eq]
    split
    · rfl
    · rw [formatValues_bad m msfields columns vals hbad pre]
      rfl

/-- C7: during dump, a decoded page row whose time value is missing (left at
the sentinel `0`) or which yields zero non-null, non-empty field values makes
`format_rows` abort the whole run (`sys.exit(-1)`, modelled as
`Except.error`) — it is not skipped, no matter how many good rows precede
it in the series. -/
theorem C7_bad_row_fatal (m : PyStr) (msfields : List (PyStr × PyStr))
    (columns : List PyStr) (pre : List (List JVal)) (vals : List JVal)
    (hbad : (processRow msfields columns vals).timestamp.eqZero = true
          ∨ (processRow msfields columns vals).fields = []) :
    format_rows m msfields [⟨some [⟨columns, pre ++ [vals]⟩]⟩]
      = .error ("No time column or 0 fields for ".data ++ m) := by
  have hbad' : ((processRow msfields columns vals).timestamp.eqZero
      || (processRow msfields columns vals).fields.isEmpty) = true := by
    rcases hbad with h | h <;> simp [h]
  have h := formatValues_bad m msfields columns vals hbad' pre
  simp only [format_rows, formatSeriesList, h]
  rfl

/-- Witness for `C7_bad_row_fatal`: a second row whose `time` value is the
integer 0 aborts the dump even though the first row is valid. -/
theorem C7_bad_row_fatal_witness :
    format_rows "cpu".data [("load".data, "float".data)]
      [⟨some [⟨["time".data, "load".data],
        [[.int 5, .float "1.0".data]] ++ [[.int 0, .float "1.5".data]]⟩]⟩]
      = .error ("No time column or 0 fields for ".data ++ "cpu".data) :=
  C7_bad_row_fatal "cpu".data [("load".data, "float".data)]
    ["time".data, "load".data] [[.int 5, .float "1.0".data]]
    [.int 0, .float "1.5".data] (Or.inl (by decide))

end InfluxBackup

/-! ## C8 — line-protocol encoding -/

namespace InfluxBackup

/-- C8: `format_rows` encodes a decoded row as
`entity[,tag=val,...] field=val,...[,field=val] timestamp\n` with the
entity, tag keys/values and field keys wire-escaped, string-typed field
values double-quoted with inner quotes escaped, and integer-typed field
values suffixed with `i`; in particular the record
`{entity:"cpu", tags:{host:"a"}, fields:{load:1.5}, timestamp:100}` (load
declared float) encodes to exactly `"cpu,host=a load=1.5 100\n"`.  The
general conjunct exhibits the full shape on an arbitrary single-row page
with one tag and one field of each declared type. -/
theorem C8_line_protocol_encoding :
    (format_rows "cpu".data [("load".data, "float".data)]
        [⟨some [⟨["time".data, "host".data, "load".data],
          [[.int 100, .str "a".data, .float "1.5".data]]⟩]⟩]
      = .ok ["cpu,host=a load=1.5 100\n".data])
    ∧ ∀ (m tagK tagV fsK fiK ffK : PyStr) (ts iv : Int) (sv fr : PyStr),
        ts ≠ 0 → tagV ≠ [] → sv ≠ [] →
        tagK ≠ "time".data → fsK ≠ "time".data → fiK ≠ "time".data → ffK ≠ "time".data →
        fsK ≠ tagK → fiK ≠ tagK → ffK ≠ tagK →
        fsK ≠ fiK → fsK ≠ ffK → fiK ≠ ffK →
        format_rows m [(fsK, "string".data), (fiK, "integer".data), (ffK, "float".data)]
          [⟨some [⟨["time".data, tagK, fsK, fiK, ffK],
            [[.int ts, .str tagV, .str sv, .int iv, .float fr]]⟩]⟩]
        = .ok [identifier2lineprotocol m
            ++ ',' :: identifier2lineprotocol tagK ++ '=' :: identifier2lineprotocol tagV
            ++ ' ' :: identifier2lineprotocol fsK
              ++ '=' :: '"' :: pyReplaceChar '"' ['\\', '"'] sv ++ ['"']
            ++ ',' :: identifier2lineprotocol fiK ++ '=' :: intRender iv ++ ['i']
            ++ ',' :: identifier2lineprotocol ffK ++ '=' :: fr
            ++ ' ' :: intRender ts ++ ['\n']] := by
  constructor
  · rfl
  · intro m tagK tagV fsK fiK ffK ts iv sv fr hts htagV hsv htK hsK hiK hfK hs1 hi1 hf1 hsi hsf hif
    have hts' : (ts == 0) = false := beq_eq_false_iff_ne.mpr hts
    have htagV' : tagV.isEmpty = false := by
      cases tagV with
      | nil => exact absurd rfl htagV
      | cons a l => rfl
    have hsv' : sv.isEmpty = false := by
      cases sv with
      | nil => exact absurd rfl hsv
      | cons a l => rfl
    have b1 : (fsK == tagK) = false := beq_eq_false_iff_ne.mpr hs1
    have b2 : (fiK == tagK) = false := beq_eq_false_iff_ne.mpr hi1
    have b3 : (ffK == tagK) = false := beq_eq_false_iff_ne.mpr hf1
    have b4 : (fsK == fiK) = false := beq_eq_false_iff_ne.mpr hsi
    have b5 : (fsK == ffK) = false := beq_eq_false_iff_ne.mpr hsf
    have b6 : (fiK == ffK) = false := beq_eq_false_iff_ne.mpr hif
    have d1 : "integer".data ≠ "string".data := by decide
    have d2 : "float".data ≠ "string".data := by decide
    have d3 : "float".data ≠ "integer".data := by decide
    simp [format_rows, formatSeriesList, formatValues, processRow, rowStep, emitRow,
      joinComma, dictLookup, List.find?, JVal.isSkipped, JVal.render, JVal.eqZero,
      List.zip_cons_cons, List.zip_nil_right,
      hts', htagV', hsv', htK, hsK, hiK, hfK, b1, b2, b3, b4, b5, b6, d1, d2, d3]
    rfl

end InfluxBackup

namespace InfluxBackup

/-- Witness for `C8_line_protocol_encoding` on names and values containing
the escaped characters. -/
theorem C8_line_protocol_encoding_witness :
    format_rows "cpu load".data
        [("status".data, "string".data), ("count".data, "integer".data),
         ("load".data, "float".data)]
        [⟨some [⟨["time".data, "host".data, "status".data, "count".data, "load".data],
          [[.int 100, .str "a b".data, .str "q\"z".data, .int (-3), .float "1.5".data]]⟩]⟩]
      = .ok [identifier2lineprotocol "cpu load".data
          ++ ',' :: identifier2lineprotocol "host".data
            ++ '=' :: identifier2lineprotocol "a b".data
          ++ ' ' :: identifier2lineprotocol "status".data
            ++ '=' :: '"' :: pyReplaceChar '"' ['\\', '"'] "q\"z".data ++ ['"']
          ++ ',' :: identifier2lineprotocol "count".data ++ '=' :: intRender (-3) ++ ['i']
          ++ ',' :: identifier2lineprotocol "load".data ++ '=' :: "1.5".data
          ++ ' ' :: intRender 100 ++ ['\n']] :=
  C8_line_protocol_encoding.2 "cpu load".data "host".data "a b".data "status".data
    "count".data "load".data 100 (-3) "q\"z".data "1.5".data
    (by decide) (by decide) (by decide) (by decide) (by decide) (by decide) (by decide)
    (by decide) (by decide) (by decide) (by decide) (by decide) (by decide)

end InfluxBackup

/-! ## C1 — restore batching -/

namespace InfluxBackup

/-- The write accumulator of `restoreGo` only collects output on the left. -/
theorem restoreGo_append {α : Type} (B : Nat) :
    ∀ (xs lines : List α) (w : List (List α)),
      restoreGo B xs lines w = w ++ restoreGo B xs lines []
  | [], lines, w => by
    by_cases h : lines.isEmpty <;> simp [restoreGo, h]
  | i :: rest, lines, w => by
    by_cases h : lines.length = B
    · simp only [restoreGo, if_pos h, List.nil_append]
      rw [restoreGo_append B rest [i] (w ++ [lines]), restoreGo_append B rest [i] [lines]]
      simp [List.append_assoc]
    · simp only [restoreGo, if_neg h, List.nil_append]
      exact restoreGo_append B rest (lines ++ [i]) w

/-- Starting from a partially filled, non-empty accumulator, the restore
loop produces exactly the `B`-chunks of the accumulated prefix followed by
the remaining input. -/
theorem restoreGo_eq_chunkify {α : Type} (B : Nat) (hB : 0 < B) :
    ∀ (xs lines : List α), lines ≠ [] → lines.length ≤ B →
      restoreGo B xs lines [] = chunkify B (lines ++ xs)
  | [], lines, hne, hlen => by
    obtain ⟨l, ls, rfl⟩ := List.exists_cons_of_ne_nil hne
    have hls : ls.length ≤ B - 1 := by
      simp only [List.length_cons] at hlen
      omega
    simp only [restoreGo, List.isEmpty_cons, List.append_nil, List.nil_append, Bool.false_eq_true,
      if_false]
    rw [chunkify, List.take_of_length_le hls, List.drop_eq_nil_of_le hls, chunkify]
  | i :: rest, lines, hne, hlen => by
    by_cases h : lines.length = B
    · simp only [restoreGo, if_pos h, List.nil_append]
      rw [restoreGo_append B rest [i] [lines],
          restoreGo_eq_chunkify B hB rest [i] (by simp) (by simpa using hB)]
      obtain ⟨l, ls, rfl⟩ := List.exists_cons_of_ne_nil hne
      have hls : ls.length = B - 1 := by
        simp only [List.length_cons] at h
        omega
      have hR : chunkify B ((l :: ls) ++ i :: rest)
          = (l :: ls) :: chunkify B (i :: rest) := by
        rw [List.cons_append, chunkify]
        rw [show B - 1 = ls.length from hls.symm, List.take_left, List.drop_left]
      rw [hR]
      simp
    · simp only [restoreGo, if_neg h, List.nil_append]
      rw [restoreGo_eq_chunkify B hB rest (lines ++ [i])
            (by simp) (by simp [List.length_append]; omega)]
      simp [List.append_assoc]

end InfluxBackup

namespace InfluxBackup

/-- For a positive batch size the restore loop is exactly `B`-chunking. -/
theorem restore_batches_eq_chunkify {α : Type} (B : Nat) (hB : 0 < B) (file : List α) :
    restore_batches B file = chunkify B file := by
  cases file with
  | nil => simp [restore_batches, restoreGo, chunkify]
  | cons x xs =>
    have h0 : ¬(([] : List α).length = B) := by simp; omega
    simp only [restore_batches, restoreGo, if_neg h0, List.nil_append]
    rw [restoreGo_eq_chunkify B hB xs [x] (by simp) (by simpa using hB)]
    simp

theorem chunkify_eq_nil_iff {α : Type} (B : Nat) (xs : List α) :
    chunkify B xs = [] ↔ xs = [] := by
  cases xs <;> simp [chunkify]

theorem chunkify_length {α : Type} (B : Nat) (hB : 0 < B) (xs : List α) :
    (chunkify B xs).length = (xs.length + B - 1) / B := by
  induction xs using chunkify.induct B with
  | case1 =>
    rw [chunkify]
    simp [Nat.div_eq_of_lt (show B - 1 < B by omega)]
  | case2 x xs ih =>
    rw [chunkify]
    simp only [List.length_cons, ih, List.length_drop]
    have hR : xs.length + 1 + B - 1 = xs.length + B := by omega
    rw [hR, Nat.add_div_right _ hB]
    rcases le_or_lt xs.length (B - 1) with hle | hlt
    · have h1 : xs.length - (B - 1) = 0 := by omega
      rw [h1, Nat.div_eq_of_lt (show 0 + B - 1 < B by omega),
          Nat.div_eq_of_lt (show xs.length < B by omega)]
    · have h1 : xs.length - (B - 1) + B - 1 = xs.length := by omega
      rw [h1]

theorem chunkify_le {α : Type} (B : Nat) (hB : 0 < B) (xs : List α) :
    ∀ b ∈ chunkify B xs, b.length ≤ B := by
  induction xs using chunkify.induct B with
  | case1 => rw [chunkify]; intro b hb; cases hb
  | case2 x xs ih =>
    rw [chunkify]
    intro b hb
    rcases List.mem_cons.mp hb with hb | hb
    · subst hb
      simp only [List.length_cons, List.length_take]
      omega
    · exact ih b hb

theorem chunkify_flatten {α : Type} (B : Nat) (xs : List α) :
    (chunkify B xs).flatten = xs := by
  induction xs using chunkify.induct B with
  | case1 => rw [chunkify]; rfl
  | case2 x xs ih =>
    rw [chunkify]
    simp [ih, List.take_append_drop]

theorem chunkify_getLast? {α : Type} (B : Nat) (hB : 0 < B) (xs : List α) :
    xs ≠ [] →
      ((chunkify B xs).getLast?).map List.length
        = some (if xs.length % B = 0 then B else xs.length % B) := by
  induction xs using chunkify.induct B with
  | case1 => intro hne; exact absurd rfl hne
  | case2 x xs ih =>
    intro _
    by_cases hrest : xs.drop (B - 1) = []
    · have hxs : xs.length ≤ B - 1 := by
        have := List.drop_eq_nil_iff.mp hrest
        omega
      rw [chunkify, hrest, chunkify, List.take_of_length_le hxs]
      simp only [List.getLast?_singleton, Option.map_some', List.length_cons]
      rcases eq_or_lt_of_le (show xs.length + 1 ≤ B by omega) with hEq | hLt
      · rw [hEq, Nat.mod_self, if_pos rfl]
      · rw [Nat.mod_eq_of_lt hLt, if_neg (by omega)]
    · rw [chunkify]
      have hne2 : chunkify B (xs.drop (B - 1)) ≠ [] := by
        rw [ne_eq, chunkify_eq_nil_iff]
        exact hrest
      obtain ⟨c, cs, hcs⟩ := List.exists_cons_of_ne_nil hne2
      rw [hcs, List.getLast?_cons_cons, ← hcs, ih hrest]
      have hge : B ≤ xs.length + 1 := by
        have hlt : B - 1 < xs.length := by
          by_contra hc
          push_neg at hc
          exact hrest (List.drop_eq_nil_of_le hc)
        omega
      have hlen : (xs.drop (B - 1)).length = xs.length + 1 - B := by
        simp only [List.length_drop]
        omega
      rw [hlen, ← Nat.mod_eq_sub_mod hge]
      simp

end InfluxBackup

namespace InfluxBackup

/-- C1: for every input file of `N` lines and batch size `B > 0`, the
restore loop issues exactly `⌈N/B⌉` write calls; every call carries at most
`B` lines; the concatenation of the batches, in order, is exactly the file
(each full batch is flushed and the accumulator cleared before more lines
are added, so nothing is lost or duplicated); and the trailing batch holds
`N mod B` lines (`B` when `B` divides `N`), flushed at end-of-entity. -/
theorem C1_restore_batching {α : Type} (B : Nat) (hB : 0 < B) (file : List α) :
    (restore_batches B file).length = (file.length + B - 1) / B
    ∧ (∀ b ∈ restore_batches B file, b.length ≤ B)
    ∧ (restore_batches B file).flatten = file
    ∧ (file ≠ [] →
        ((restore_batches B file).getLast?).map List.length
          = some (if file.length % B = 0 then B else file.length % B)) := by
  rw [restore_batches_eq_chunkify B hB file]
  exact ⟨chunkify_length B hB file, chunkify_le B hB file, chunkify_flatten B file,
    chunkify_getLast? B hB file⟩

/-- Witness for `C1_restore_batching`: five lines with batch size 2 give
three writes — `[1,2]`, `[3,4]` and a trailing `[5]`. -/
theorem C1_restore_batching_witness :
    (restore_batches 2 [1, 2, 3, 4, 5]).length = (5 + 2 - 1) / 2
    ∧ (restore_batches 2 [1, 2, 3, 4, 5]).flatten = [1, 2, 3, 4, 5]
    ∧ ((restore_batches 2 [1, 2, 3, 4, 5]).getLast?).map List.length
        = some (if 5 % 2 = 0 then 2 else 5 % 2) :=
  ⟨(C1_restore_batching 2 (by decide) [1, 2, 3, 4, 5]).1,
   (C1_restore_batching 2 (by decide) [1, 2, 3, 4, 5]).2.2.1,
   (C1_restore_batching 2 (by decide) [1, 2, 3, 4, 5]).2.2.2 (by decide)⟩

end InfluxBackup
